import Mathlib

/-!
Verification of the sky-safe-tx-decoder core against its specification.

The TypeScript sources are shallowly embedded: hex calldata (`Hex` strings
minus their `0x` prefix) is a `List Nat` of hex-digit values, addresses and
other user-facing strings are `List Char`, JavaScript `bigint`/numeric string
fields holding uint256 quantities are `Nat`, and the external `keccak256`
primitive from viem is a function parameter, since every verified property is
structural in it.
-/

set_option maxRecDepth 8000

namespace SkySafe

/-! ## Version utilities (`packages/core/src/hash/version.ts`) -/

/-- JS `String.prototype.split(sep)` for a one-character separator:
`""` splits to `[""]`, a leading/trailing separator yields an empty
first/last segment. -/
def jsSplit (sep : Char) : List Char → List (List Char)
  | [] => [[]]
  | c :: cs =>
    if c = sep then [] :: jsSplit sep cs
    else
      match jsSplit sep cs with
      | [] => [[c]]
      | s :: rest => (c :: s) :: rest

/-- Decimal value of a digit string, folding left as JS parsing does. -/
def decDigitsVal (s : List Char) : Nat :=
  s.foldl (fun n c => n * 10 + (c.toNat - '0'.toNat)) 0

/-- Fragment of JS `Number()` as applied to dotted version components:
the empty string converts to `0`, an optionally signed run of decimal
digits converts to its value, and anything else (such as `"x"` or
`"0+L2"`) is NaN, modelled as `none`.  Whitespace trimming and
non-decimal literal forms are outside the modelled fragment. -/
def jsNumber (s : List Char) : Option Int :=
  match s with
  | [] => some 0
  | '-' :: rest =>
    if rest ≠ [] ∧ rest.all (·.isDigit) then some (-(decDigitsVal rest : Int)) else none
  | '+' :: rest =>
    if rest ≠ [] ∧ rest.all (·.isDigit) then some (decDigitsVal rest : Int) else none
  | _ =>
    if s.all (·.isDigit) then some (decDigitsVal s : Int) else none

/-- `getVersion`: `version.split('+')[0] || ''` — strip any `+suffix`. -/
def getVersion (version : List Char) : List Char :=
  (jsSplit '+' version).headD []

/-- `v.split('.').map(Number)` — the dotted components of a version. -/
def versionParts (v : List Char) : List (Option Int) :=
  (jsSplit '.' v).map jsNumber

/-- `parts[i] || 0`: a missing component (`undefined`), a NaN component
and a zero component all coerce to `0`. -/
def numPartAt (ps : List (Option Int)) (i : Nat) : Int :=
  (ps.getD i none).getD 0

/-- The comparison loop of `compareVersions`, iterating the index range
`[0, max parts1.length parts2.length)` and returning at the first
strictly differing components. -/
def cmpLoop (ps1 ps2 : List (Option Int)) : List Nat → Int
  | [] => 0
  | i :: is =>
    let p1 := numPartAt ps1 i
    let p2 := numPartAt ps2 i
    if p1 > p2 then 1
    else if p1 < p2 then -1
    else cmpLoop ps1 ps2 is

/-- `compareVersions(v1, v2)` from `version.ts`. -/
def compareVersions (v1 v2 : List Char) : Int :=
  let ps1 := versionParts v1
  let ps2 := versionParts v2
  cmpLoop ps1 ps2 (List.range (max ps1.length ps2.length))

/-- `isVersionGte(v1, v2)`. -/
def isVersionGte (v1 v2 : List Char) : Bool :=
  compareVersions v1 v2 ≥ 0

/-- `isVersionLte(v1, v2)`. -/
def isVersionLte (v1 v2 : List Char) : Bool :=
  compareVersions v1 v2 ≤ 0

/-- `isVersionLt(v1, v2)`. -/
def isVersionLt (v1 v2 : List Char) : Bool :=
  compareVersions v1 v2 < 0

/-- `MIN_SAFE_VERSION` from `hash/constants.ts`. -/
def MIN_SAFE_VERSION : List Char := "0.1.0".data

/-- `validateVersion`: throws on the empty version and on versions below
the floor; the thrown error is modelled as `false`, acceptance as `true`. -/
def validateVersion (version : List Char) : Bool :=
  if version = [] then false
  else isVersionGte (getVersion version) MIN_SAFE_VERSION

/-! ## Byte and hex-digit helpers

Calldata (`Hex` values) is modelled as the list of hex-digit values of the
string after its `0x` marker; bytes are `Nat` values below 256. -/

/-- Big-endian byte expansion of `n` into exactly `k` bytes (the value is
implicitly reduced modulo `2 ^ (8 * k)`, the range viem enforces). -/
def natToBEBytes : Nat → Nat → List Nat
  | 0, _ => []
  | k + 1, n => natToBEBytes k (n / 256) ++ [n % 256]

/-- The numeric value of a big-endian string of hex digits, as read by
`parseInt(s, 16)` and `BigInt('0x' + s)` on in-range inputs. -/
def hexVal (digits : List Nat) : Nat :=
  digits.foldl (fun n d => 16 * n + d) 0

/-- Value of one hexadecimal character, case-insensitive; viem rejects
other characters, so they are unreachable for well-formed inputs. -/
def hexCharVal (c : Char) : Nat :=
  if '0' ≤ c ∧ c ≤ '9' then c.toNat - '0'.toNat
  else if 'a' ≤ c ∧ c ≤ 'f' then c.toNat - 'a'.toNat + 10
  else if 'A' ≤ c ∧ c ≤ 'F' then c.toNat - 'A'.toNat + 10
  else 0

/-- Numeric value of a `0x`-prefixed address string, case-insensitive. -/
def addressVal (a : List Char) : Nat :=
  (a.drop 2).foldl (fun n c => 16 * n + hexCharVal c) 0

/-- Regroup a hex-digit list into bytes.  Well-formed calldata has even
length; viem rejects odd-length hex, so the trailing-digit case is
unreachable and kept only for totality. -/
def digitsToBytes : List Nat → List Nat
  | [] => []
  | [d] => [d]
  | d1 :: d2 :: rest => (16 * d1 + d2) :: digitsToBytes rest

/-- Two hex digits of a byte value. -/
def byteToDigits (b : Nat) : List Nat :=
  [b / 16 % 16, b % 16]

/-- Hex digits of a list of bytes. -/
def bytesToDigits (bs : List Nat) : List Nat :=
  bs.flatMap byteToDigits

/-! ## EIP-712 hash calculator (`packages/core/src/hash`)

`keccak256` comes from the external viem library; every claim about the
calculator is structural in it, so the digest is a function parameter
`keccak : List Nat → List Nat` from bytes to bytes. -/

/-- `DOMAIN_SEPARATOR_TYPEHASH` (with chainId), `hash/constants.ts`. -/
def DOMAIN_SEPARATOR_TYPEHASH : Nat :=
  0x47e79534a245952e8b16893a336b85a3d9ea9fa8c573f3d803afb92a79469218

/-- `DOMAIN_SEPARATOR_TYPEHASH_OLD` (without chainId), `hash/constants.ts`. -/
def DOMAIN_SEPARATOR_TYPEHASH_OLD : Nat :=
  0x035aff83d86937d35b32e04f0ddc6ff469290eef2f1b692d8a815c89404d4749

/-- `SAFE_TX_TYPEHASH` (with `baseGas`), `hash/constants.ts`. -/
def SAFE_TX_TYPEHASH : Nat :=
  0xbb8310d486368db6bd6f849402fdd73ad53d316b5a4b2644ad6efe0f941286d8

/-- `SAFE_TX_TYPEHASH_OLD` (with `dataGas`), `hash/constants.ts`. -/
def SAFE_TX_TYPEHASH_OLD : Nat :=
  0x14d461bc7412367e924637b363c7bf29b8f47e2f84869f4426e5633d8af47b20

/-- One 32-byte ABI word for a `bytes32`/`uint256`/`uint8` value; viem
left-pads static values to the word width. -/
def abiWord (n : Nat) : List Nat :=
  natToBEBytes 32 n

/-- One 32-byte ABI word for an address value (left-padded to 32 bytes). -/
def abiWordOfAddress (a : List Char) : List Nat :=
  abiWord (addressVal a)

/-- `SafeTransactionData` from `types.ts`: `bigint | string` uint256
quantities are `Nat`, addresses keep their character spelling (the
security checks compare them case-insensitively), calldata is hex
digits. -/
structure SafeTransactionData where
  «to» : List Char
  value : Nat
  data : List Nat
  operation : Nat
  safeTxGas : Nat
  baseGas : Nat
  gasPrice : Nat
  gasToken : List Char
  refundReceiver : List Char
  nonce : Nat
  deriving Repr, DecidableEq

/-- `calculateDomainHash(chainId, safeAddress, version)` from
`hash/domain.ts`: the legacy encoding `(typeHash, address)` for clean
versions `<= 1.2.0`, the current `(typeHash, chainId, address)`
afterwards. -/
def calculateDomainHash (keccak : List Nat → List Nat) (chainId : Nat)
    (safeAddress : List Char) (version : List Char) : List Nat :=
  let cleanVersion := getVersion version
  if isVersionLte cleanVersion "1.2.0".data then
    keccak (abiWord DOMAIN_SEPARATOR_TYPEHASH_OLD ++ abiWordOfAddress safeAddress)
  else
    keccak (abiWord DOMAIN_SEPARATOR_TYPEHASH ++ abiWord chainId ++
      abiWordOfAddress safeAddress)

/-- `calculateMessageHash(txData, version)` from `hash/message.ts`: the
dynamic `bytes` field is hashed, the type hash is the legacy one for
clean versions `< 1.0.0`, and the eleven struct fields are each one ABI
word. -/
def calculateMessageHash (keccak : List Nat → List Nat)
    (txData : SafeTransactionData) (version : List Char) : List Nat :=
  let cleanVersion := getVersion version
  let dataHash := keccak (digitsToBytes txData.data)
  let safeTxTypeHash :=
    if isVersionLt cleanVersion "1.0.0".data then SAFE_TX_TYPEHASH_OLD
    else SAFE_TX_TYPEHASH
  keccak (abiWord safeTxTypeHash ++ abiWordOfAddress txData.«to» ++
    abiWord txData.value ++ dataHash ++ abiWord txData.operation ++
    abiWord txData.safeTxGas ++ abiWord txData.baseGas ++
    abiWord txData.gasPrice ++ abiWordOfAddress txData.gasToken ++
    abiWordOfAddress txData.refundReceiver ++ abiWord txData.nonce)

/-- `SafeTxHashResult` from `hash/calculator.ts`. -/
structure SafeTxHashResult where
  domainHash : List Nat
  messageHash : List Nat
  safeTxHash : List Nat
  deriving Repr, DecidableEq

/-- `calculateSafeTxHash(chainId, safeAddress, txData, version)` from
`hash/calculator.ts`; the `validateVersion` throw is modelled as
`none`. -/
def calculateSafeTxHash (keccak : List Nat → List Nat) (chainId : Nat)
    (safeAddress : List Char) (txData : SafeTransactionData)
    (version : List Char) : Option SafeTxHashResult :=
  if validateVersion version then
    let domainHash := calculateDomainHash keccak chainId safeAddress version
    let messageHash := calculateMessageHash keccak txData version
    some
      { domainHash := domainHash
        messageHash := messageHash
        safeTxHash := keccak (0x19 :: 0x01 :: (domainHash ++ messageHash)) }
  else
    none

/-! ## MultiSend decoder (`packages/core/src/security/multisend-decoder.ts`)

The source walks an absolute character offset through the `Hex` string,
reading `packedData.slice(offset + a, offset + b)` and advancing the
offset; here the suffix `rem = digits.drop offset` is carried instead, so
each slice is `(rem.drop a).take (b - a)` and advancing by `k` is
`rem.drop k`.  The original offsets (2/42/106/170 characters past the
record start, after the `0x` marker) are kept. -/

/-- Selector digits of `multiSend(bytes)`, `0x8d80ff0a`
(`toFunctionSelector` applied to the `MULTISEND_ABI` entry). -/
def multiSendSelector : List Nat := [8, 13, 8, 0, 15, 15, 0, 10]

/-- `DecodedMultiSendTransaction`: one record of the packed batch; `to`
and `data` stay in hex-digit form as the source keeps them as strings. -/
structure DecodedMultiSendTransaction where
  operation : Nat
  «to» : List Nat
  value : Nat
  data : List Nat
  deriving Repr, DecidableEq

/-- The argument-extraction half of `decodeMultiSend`: viem's
`decodeFunctionData` with the single-`bytes` `multiSend` ABI.  It
returns the packed payload digits, or `none` where viem throws — on a
selector mismatch, on a parameter section shorter than one word, and on
an offset/length word pointing past the buffer. -/
def decodeMultiSendArg (data : List Nat) : Option (List Nat) :=
  if data.length < 8 then none
  else if data.take 8 ≠ multiSendSelector then none
  else
    let params := data.drop 8
    if params.length < 64 then none
    else
      let off := hexVal (params.take 64)
      let pos := off * 2
      if params.length < pos + 64 then none
      else
        let len := hexVal ((params.drop pos).take 64)
        if params.length < pos + 64 + 2 * len then none
        else some ((params.drop (pos + 64)).take (2 * len))

/-- The record walk of `decodeMultiSend`, structurally recursive on an
upper bound (`fuel`) for the number of remaining digits; each iteration
drops at least 170 digits, so `fuel = rem.length` never runs out.
Failure (`none`) reproduces `BigInt('0x' + valueHex)` throwing on an
empty slice; an empty data-length slice makes `parseInt` yield NaN, so
the record is pushed with empty data and the NaN offset ends the loop. -/
def multiSendWalkFuel : Nat → List Nat → Option (List DecodedMultiSendTransaction)
  | _, [] => some []
  | 0, _ :: _ => none
  | fuel + 1, c :: cs =>
    let rem := c :: cs
    let operation := hexVal (rem.take 2)
    let toAddr := (rem.drop 2).take 40
    let valueHex := (rem.drop 42).take 64
    if valueHex = [] then none
    else
      let value := hexVal valueHex
      let dataLengthHex := (rem.drop 106).take 64
      if dataLengthHex = [] then
        some [⟨operation, toAddr, value, []⟩]
      else
        let dataLength := hexVal dataLengthHex
        let txData := (rem.drop 170).take (2 * dataLength)
        match multiSendWalkFuel fuel (rem.drop (170 + 2 * dataLength)) with
        | none => none
        | some rest => some (⟨operation, toAddr, value, txData⟩ :: rest)

/-- The record walk at its canonical fuel. -/
def multiSendWalk (rem : List Nat) : Option (List DecodedMultiSendTransaction) :=
  multiSendWalkFuel rem.length rem

/-- `decodeMultiSend(data)`: `null` where `decodeFunctionData` or the
walk throws, otherwise the list of decoded records. -/
def decodeMultiSend (data : List Nat) :
    Option (List DecodedMultiSendTransaction) :=
  match decodeMultiSendArg data with
  | none => none
  | some packed => multiSendWalk packed

/-! ### Spec-side packed encoder (for the round-trip claim)

Modelled from the spec: §4.3 describes each record as
`1 + 20 + 32 + 32 + dataLength` bytes — operation byte, 20-byte target,
32-byte big-endian value, 32-byte big-endian length, payload — records
concatenated without delimiters and handed to the single-`bytes`
`multiSend` wrapper.  The repository contains no encoder. -/

/-- One sub-call as the spec's §3 `SubCall` describes it, in byte form. -/
structure SubCall where
  operation : Nat
  «to» : List Nat
  value : Nat
  data : List Nat
  deriving Repr, DecidableEq

/-- A `SubCall` is well formed when its fields fit their wire widths. -/
def SubCall.WellFormed (s : SubCall) : Prop :=
  s.operation < 256 ∧ s.«to».length = 20 ∧ (∀ b ∈ s.«to», b < 256) ∧
    s.value < 2 ^ 256 ∧ ∀ b ∈ s.data, b < 256

instance (s : SubCall) : Decidable s.WellFormed := by
  unfold SubCall.WellFormed
  infer_instance

/-- Packed bytes of one record: `1 + 20 + 32 + 32 + L` bytes. -/
def encodeSubCall (s : SubCall) : List Nat :=
  s.operation :: (s.«to» ++ natToBEBytes 32 s.value ++
    natToBEBytes 32 s.data.length ++ s.data)

/-- Concatenation of the packed records, no delimiters. -/
def encodePacked (subs : List SubCall) : List Nat :=
  subs.flatMap encodeSubCall

/-- Canonical ABI wrapping of the packed bytes in a `multiSend(bytes)`
call: selector, the head word `0x20`, the byte length, the payload, and
zero padding to a word boundary — all in hex digits. -/
def encodeMultiSendCall (subs : List SubCall) : List Nat :=
  let payload := encodePacked subs
  multiSendSelector ++ bytesToDigits (natToBEBytes 32 0x20) ++
    bytesToDigits (natToBEBytes 32 payload.length) ++
    bytesToDigits payload ++
    List.replicate ((32 - payload.length % 32) % 32 * 2) 0

/-- The decoded record a well-formed `SubCall` should round-trip to. -/
def SubCall.toDecoded (s : SubCall) : DecodedMultiSendTransaction :=
  ⟨s.operation, bytesToDigits s.«to», s.value, bytesToDigits s.data⟩

/-! ## Security checks (`packages/core/src/security`, UI copy of
`gas-token.ts` in `TransactionAnalysis.tsx`) -/

/-- `WarningLevel` from the security types. -/
inductive WarningLevel where
  | critical | high | medium | low | info
  deriving Repr, DecidableEq, Fintype

/-- The `'critical' | 'high' | 'medium' | 'low' | 'none'` risk scale of
`GasTokenCheckResult.riskLevel` and `SecurityAnalysisResult.overallRisk`. -/
inductive RiskLevel where
  | critical | high | medium | low | none
  deriving Repr, DecidableEq, Fintype

/-- `ZERO_ADDRESS` from `security/constants.ts`. -/
def ZERO_ADDRESS : List Char := "0x0000000000000000000000000000000000000000".data

/-- JS `String.prototype.toLowerCase()` on the ASCII alphabet. -/
def toLowerChars (s : List Char) : List Char :=
  s.map Char.toLower

/-- `GasTokenCheckResult`; the `gasPrice` echo field keeps the numeric
value of the source's string. -/
structure GasTokenCheckResult where
  usesCustomGasToken : Bool
  usesCustomRefundReceiver : Bool
  hasNonZeroGasPrice : Bool
  gasToken : List Char
  refundReceiver : List Char
  gasPrice : Nat
  riskLevel : RiskLevel
  warnings : List String
  warningLevel : Option WarningLevel
  deriving Repr, DecidableEq

/-- First warning of the combined gas-token/refund-receiver pattern. -/
def gasTokenComboWarning : String :=
  "WARNING: This transaction uses a custom gas token and a custom refund receiver. This combination can be used to hide a rerouting of funds through gas refunds."

/-- Additional clause pushed when the gas price is also non-zero. -/
def gasTokenNonZeroPriceWarning : String :=
  "Furthermore, the gas price is non-zero, which increases the potential for hidden value transfers."

/-- Warning for a lone custom gas token. -/
def gasTokenOnlyWarning : String :=
  "WARNING: This transaction uses a custom gas token. Please verify that this is intended."

/-- Warning for a lone custom refund receiver. -/
def refundReceiverOnlyWarning : String :=
  "WARNING: This transaction uses a custom refund receiver. Please verify that this is intended."

/-- `checkGasTokenAttack(gasPrice, gasToken, refundReceiver)` from the
gas-token checker: risk escalates with the combination of a custom gas
token, a custom refund receiver and a non-zero gas price, customness
being a case-insensitive comparison against the zero address. -/
def checkGasTokenAttack (gasPrice : Nat) (gasToken refundReceiver : List Char) :
    GasTokenCheckResult :=
  let usesCustomGasToken := decide (toLowerChars gasToken ≠ toLowerChars ZERO_ADDRESS)
  let usesCustomRefundReceiver :=
    decide (toLowerChars refundReceiver ≠ toLowerChars ZERO_ADDRESS)
  let hasNonZeroGasPrice := decide (0 < gasPrice)
  if usesCustomGasToken && usesCustomRefundReceiver then
    if hasNonZeroGasPrice then
      { usesCustomGasToken, usesCustomRefundReceiver, hasNonZeroGasPrice,
        gasToken, refundReceiver, gasPrice,
        riskLevel := .critical,
        warnings := [gasTokenComboWarning, gasTokenNonZeroPriceWarning],
        warningLevel := some .critical }
    else
      { usesCustomGasToken, usesCustomRefundReceiver, hasNonZeroGasPrice,
        gasToken, refundReceiver, gasPrice,
        riskLevel := .high,
        warnings := [gasTokenComboWarning],
        warningLevel := some .high }
  else if usesCustomGasToken then
    { usesCustomGasToken, usesCustomRefundReceiver, hasNonZeroGasPrice,
      gasToken, refundReceiver, gasPrice,
      riskLevel := .medium,
      warnings := [gasTokenOnlyWarning],
      warningLevel := some .medium }
  else if usesCustomRefundReceiver then
    { usesCustomGasToken, usesCustomRefundReceiver, hasNonZeroGasPrice,
      gasToken, refundReceiver, gasPrice,
      riskLevel := .low,
      warnings := [refundReceiverOnlyWarning],
      warningLevel := some .low }
  else
    { usesCustomGasToken, usesCustomRefundReceiver, hasNonZeroGasPrice,
      gasToken, refundReceiver, gasPrice,
      riskLevel := .none,
      warnings := [],
      warningLevel := none }

/-- `TRUSTED_DELEGATE_CALL_ADDRESSES` from `security/constants.ts`:
`MULTISEND_CALL_ONLY ++ SAFE_MIGRATION ++ SIGN_MESSAGE_LIB`. -/
def TRUSTED_DELEGATE_CALL_ADDRESSES : List (List Char) :=
  [ "0x40A2aCCbd92BCA938b02010E17A5b8929b49130D".data,
    "0xA1dabEF33b3B82c7814B6D82A79e50F4AC44102B".data,
    "0xf220D3b4DFb23C4ade8C88E526C1353AbAcbC38F".data,
    "0x9641d764fc13c8B624c04430C7356C1C7C8102e2".data,
    "0x0408EF011960d02349d50286D20531229BCef773".data,
    "0xA83c336B20401Af773B6219BA5027174338D1836".data,
    "0x526643F69b81B008F46d95CD5ced5eC0edFFDaC6".data,
    "0x817756C6c555A94BCEE39eB5a102AbC1678b09A7".data,
    "0x6439e7ABD8Bb915A5263094784C5CF561c4172AC".data,
    "0xA65387F16B013cf2Af4605Ad8aA5ec25a2cbA3a2".data,
    "0x98FFBBF51bb33A056B08ddf711f289936AafF717".data,
    "0x357147caf9C0cCa67DfA0CF5369318d8193c8407".data,
    "0xd53cd0aB83D845Ac265BE939c57F53AD838012c9".data,
    "0xAca1ec0a1A575CDCCF1DC3d5d296202Eb6061888".data,
    "0x4FfeF8222648872B3dE295Ba1e49110E61f5b5aa".data ]

/-- `isTrustedForDelegateCall(address)` from `delegate-call.ts`. -/
def isTrustedForDelegateCall (address : List Char) : Bool :=
  TRUSTED_DELEGATE_CALL_ADDRESSES.any
    (fun trusted => toLowerChars trusted = toLowerChars address)

/-- `DelegateCallCheckResult`. -/
structure DelegateCallCheckResult where
  isDelegateCall : Bool
  isTrusted : Bool
  targetAddress : Option (List Char) := none
  warning : Option String := none
  warningLevel : Option WarningLevel := none
  deriving Repr, DecidableEq

/-- `checkDelegateCall(operation, to)` from `delegate-call.ts`:
operation `1` to a target outside the trusted list produces the
critical warning. -/
def checkDelegateCall (operation : Nat) («to» : List Char) :
    DelegateCallCheckResult :=
  if operation ≠ 1 then
    { isDelegateCall := false, isTrusted := false }
  else if isTrustedForDelegateCall «to» then
    { isDelegateCall := true, isTrusted := true, targetAddress := some «to» }
  else
    { isDelegateCall := true, isTrusted := false, targetAddress := some «to»,
      warning := some ("WARNING: The transaction includes an untrusted delegate call to address " ++
        ⟨«to»⟩ ++ "! This may lead to unexpected behaviour or vulnerabilities. Please review it carefully before you sign!"),
      warningLevel := some .critical }

/-- `getFunctionSelector(data)` (both `owner-checks.ts` and
`module-guard-checks.ts`): `null` on missing data or fewer than four
bytes, otherwise the first four bytes; `'0x'` and `''` are the empty
digit list. -/
def getFunctionSelector (data : List Nat) : Option (List Nat) :=
  if data.length < 8 then none else some (data.take 8)

/-- `OWNER_MODIFICATION_SELECTORS`: the four owner/threshold selectors,
`toFunctionSelector` evaluated to its well-known four-byte constants. -/
def OWNER_MODIFICATION_SELECTORS : List (List Nat × String) :=
  [ ([0, 13, 5, 8, 2, 15, 1, 3], "addOwnerWithThreshold"),
    ([15, 8, 13, 12, 5, 13, 13, 9], "removeOwner"),
    ([14, 3, 1, 8, 11, 5, 2, 11], "swapOwner"),
    ([6, 9, 4, 14, 8, 0, 12, 3], "changeThreshold") ]

/-- `OwnerModificationDetection`. -/
structure OwnerModificationDetection where
  functionName : String
  isNested : Bool
  depth : Nat
  deriving Repr, DecidableEq

/-- The recursive `checkTransactionData` of `owner-checks.ts`,
structurally recursive on a digit-count bound: a selector hit returns a
single detection immediately; otherwise a decodable batch is unwound
and every sub-call checked at `depth + 1`.  Sub-call data is strictly
shorter than the batch calldata, so `fuel = data.length` never runs
out. -/
def checkTransactionDataFuel : Nat → List Nat → Nat → List OwnerModificationDetection
  | _, [], _ => []
  | 0, _ :: _, _ => []
  | fuel + 1, d :: ds, depth =>
    let data := d :: ds
    match (getFunctionSelector data).bind
        (fun sel => OWNER_MODIFICATION_SELECTORS.lookup sel) with
    | some functionName => [⟨functionName, decide (0 < depth), depth⟩]
    | none =>
      match decodeMultiSend data with
      | some txs => txs.flatMap (fun t => checkTransactionDataFuel fuel t.data (depth + 1))
      | none => []

/-- `checkTransactionData(data, depth)` at its canonical fuel. -/
def checkTransactionData (data : List Nat) (depth : Nat) :
    List OwnerModificationDetection :=
  checkTransactionDataFuel data.length data depth

/-- `OwnerModificationCheckResult`. -/
structure OwnerModificationCheckResult where
  modifiesOwners : Bool
  modifications : List OwnerModificationDetection
  warning : Option String := none
  warningLevel : WarningLevel
  deriving Repr, DecidableEq

/-- `checkOwnerModifications(data)` from `owner-checks.ts`. -/
def checkOwnerModifications (data : List Nat) : OwnerModificationCheckResult :=
  let modifications := checkTransactionData data 0
  if modifications = [] then
    { modifiesOwners := false, modifications := [], warningLevel := .info }
  else
    let functionNames :=
      String.intercalate ", " (modifications.map (·.functionName))
    { modifiesOwners := true, modifications,
      warning := some ("WARNING: This transaction modifies the owners or threshold of the Safe! Functions: " ++
        functionNames ++ ". Proceed with caution!"),
      warningLevel := .critical }

/-! ### Module/guard checks (`module-guard-checks.ts`) -/

/-- `MODULE_SELECTORS`: `enableModule(address)` and
`disableModule(address,address)`. -/
def MODULE_SELECTORS : List (List Nat × String) :=
  [ ([6, 1, 0, 11, 5, 9, 2, 5], "enableModule"),
    ([14, 0, 0, 9, 12, 15, 13, 14], "disableModule") ]

/-- `GUARD_SELECTORS`: `setGuard(address)`. -/
def GUARD_SELECTORS : List (List Nat × String) :=
  [ ([14, 1, 9, 10, 9, 13, 13, 9], "setGuard") ]

/-- `TRUSTED_MODULES` from `security/constants.ts`. -/
def TRUSTED_MODULES : List (List Char) :=
  [ "0xcfbfac74c26f8647cbdb8c5caf80bb5b32e43134".data ]

/-- `TRUSTED_GUARDS` from `security/constants.ts` (currently empty). -/
def TRUSTED_GUARDS : List (List Char) := []

/-- Lowercase character spelling of an extracted address, `0x` then the
hex digits; viem returns a checksummed string whose lowercasing is
exactly this. -/
def digitsToAddressChars (ds : List Nat) : List Char :=
  '0' :: 'x' :: ds.map (fun d => if d < 10 then Char.ofNat ('0'.toNat + d)
    else Char.ofNat ('a'.toNat + d - 10))

/-- `isTrustedModule(address)`. -/
def isTrustedModule (addrDigits : List Nat) : Bool :=
  TRUSTED_MODULES.any (fun trusted => toLowerChars trusted = digitsToAddressChars addrDigits)

/-- `isTrustedGuard(address)`. -/
def isTrustedGuard (addrDigits : List Nat) : Bool :=
  TRUSTED_GUARDS.any (fun trusted => toLowerChars trusted = digitsToAddressChars addrDigits)

/-- `ModuleGuardDetection`; `type` is `true` for `'module'`, `false`
for `'guard'`. -/
structure ModuleGuardDetection where
  isModuleType : Bool
  functionName : String
  targetAddress : Option (List Nat) := none
  isTrusted : Bool
  isNested : Bool
  depth : Nat
  deriving Repr, DecidableEq

/-- The address of the `i`-th 32-byte argument word (its last 20 bytes),
or `none` where viem's `decodeFunctionData` throws because the word is
out of bounds; mirrors the `try` block extracting module/guard targets. -/
def argAddress (data : List Nat) (i : Nat) : Option (List Nat) :=
  let args := data.drop 8
  if args.length < 64 * (i + 1) then none
  else some (((args.drop (64 * i)).take 64).drop 24)

/-- The recursive `checkTransactionData` of `module-guard-checks.ts`:
module selectors are tried first (extracting the first argument for
`enableModule` and the second for `disableModule`), then the guard
selector, then batch unwinding; an address-extraction failure still
pushes a detection with `isTrusted = false` and no address. -/
def checkModuleGuardFuel : Nat → List Nat → Nat → List ModuleGuardDetection
  | _, [], _ => []
  | 0, _ :: _, _ => []
  | fuel + 1, d :: ds, depth =>
    let data := d :: ds
    match getFunctionSelector data with
    | some sel =>
      match MODULE_SELECTORS.lookup sel with
      | some functionName =>
        let argIndex := if functionName = "enableModule" then 0 else 1
        match argAddress data argIndex with
        | some addr =>
          [⟨true, functionName, some addr, isTrustedModule addr,
            decide (0 < depth), depth⟩]
        | none => [⟨true, functionName, none, false, decide (0 < depth), depth⟩]
      | none =>
        match GUARD_SELECTORS.lookup sel with
        | some functionName =>
          match argAddress data 0 with
          | some addr =>
            [⟨false, functionName, some addr, isTrustedGuard addr,
              decide (0 < depth), depth⟩]
          | none => [⟨false, functionName, none, false, decide (0 < depth), depth⟩]
        | none =>
          match decodeMultiSend data with
          | some txs => txs.flatMap (fun t => checkModuleGuardFuel fuel t.data (depth + 1))
          | none => []
    | none =>
      match decodeMultiSend data with
      | some txs => txs.flatMap (fun t => checkModuleGuardFuel fuel t.data (depth + 1))
      | none => []

/-- `ModuleGuardCheckResult`. -/
structure ModuleGuardCheckResult where
  hasModuleOperation : Bool
  hasGuardOperation : Bool
  detections : List ModuleGuardDetection
  warnings : Option (List String) := none
  warningLevel : WarningLevel
  deriving Repr, DecidableEq

/-- Module warning when at least one untrusted module operation exists. -/
def moduleUntrustedWarning (functionNames : String) : String :=
  "WARNING: This transaction modifies Safe modules (" ++ functionNames ++
    ")! Modules have unlimited access to the Safe and can execute arbitrary transactions, bypassing signature requirements. This is a significant security risk."

/-- Module warning when all module operations target trusted modules. -/
def moduleTrustedWarning (functionNames : String) : String :=
  "WARNING: This transaction modifies Safe modules (" ++ functionNames ++
    ")! Even though this involves a trusted module, modules have significant power and risk. Verify the module address and ensure this change is intended."

/-- Guard warning. -/
def guardWarning (functionNames : String) : String :=
  "WARNING: This transaction modifies the Safe guard (" ++ functionNames ++
    ")! Guards can block transaction execution. An improperly configured guard can cause denial of service, effectively bricking the Safe. Proceed with extreme caution!"

/-- `checkModuleGuardOperations(data)` from `module-guard-checks.ts`;
any detection makes the severity `high`. -/
def checkModuleGuardOperations (data : List Nat) : ModuleGuardCheckResult :=
  let detections := checkModuleGuardFuel data.length data 0
  if detections = [] then
    { hasModuleOperation := false, hasGuardOperation := false,
      detections := [], warningLevel := .info }
  else
    let moduleOps := detections.filter (·.isModuleType)
    let guardOps := detections.filter (fun d => !d.isModuleType)
    let moduleWarnings :=
      if moduleOps = [] then []
      else
        let functionNames := String.intercalate ", " (moduleOps.map (·.functionName))
        if moduleOps.any (fun op => !op.isTrusted) then
          [moduleUntrustedWarning functionNames]
        else
          [moduleTrustedWarning functionNames]
    let guardWarnings :=
      if guardOps = [] then []
      else [guardWarning (String.intercalate ", " (guardOps.map (·.functionName)))]
    { hasModuleOperation := !moduleOps.isEmpty,
      hasGuardOperation := !guardOps.isEmpty,
      detections,
      warnings := some (moduleWarnings ++ guardWarnings),
      warningLevel := .high }

/-! ### Combined analyzer (`security/analyzer.ts`) -/

/-- `SecurityAnalysisResult`. -/
structure SecurityAnalysisResult where
  delegateCall : DelegateCallCheckResult
  gasToken : GasTokenCheckResult
  ownerModification : OwnerModificationCheckResult
  moduleGuard : ModuleGuardCheckResult
  overallRisk : RiskLevel
  requiresCarefulReview : Bool
  deriving Repr, DecidableEq

/-- The overall-risk cascade of `analyzeSecurity`, testing the four
check levels against `critical`, then `high`, `medium`, `low`. -/
def overallRiskChain (w1 : Option WarningLevel) (g : RiskLevel)
    (wo wm : WarningLevel) : RiskLevel :=
  if w1 = some .critical ∨ g = .critical ∨ wo = .critical ∨ wm = .critical then
    .critical
  else if w1 = some .high ∨ g = .high ∨ wo = .high ∨ wm = .high then
    .high
  else if w1 = some .medium ∨ g = .medium ∨ wo = .medium ∨ wm = .medium then
    .medium
  else if w1 = some .low ∨ g = .low ∨ wo = .low ∨ wm = .low then
    .low
  else
    .none

/-- `analyzeSecurity(txData)` from `analyzer.ts`: the four checks, the
overall-risk cascade, and the careful-review flag. -/
def analyzeSecurity (txData : SafeTransactionData) : SecurityAnalysisResult :=
  let delegateCall := checkDelegateCall txData.operation txData.«to»
  let gasToken := checkGasTokenAttack txData.gasPrice txData.gasToken txData.refundReceiver
  let ownerModification := checkOwnerModifications txData.data
  let moduleGuard := checkModuleGuardOperations txData.data
  let overallRisk := overallRiskChain delegateCall.warningLevel gasToken.riskLevel
    ownerModification.warningLevel moduleGuard.warningLevel
  let requiresCarefulReview :=
    overallRisk = RiskLevel.critical ∨ overallRisk = RiskLevel.high ∨
      delegateCall.warningLevel.isSome = true ∨ 0 < gasToken.warnings.length ∨
      ownerModification.modifiesOwners = true ∨
      moduleGuard.hasModuleOperation = true ∨ moduleGuard.hasGuardOperation = true
  { delegateCall, gasToken, ownerModification, moduleGuard, overallRisk,
    requiresCarefulReview := decide requiresCarefulReview }

/-! ## Decoded-data verifier (`packages/core/src/utils/verify-decoded.ts`)

The untrusted annotator's values are strings or (nested) arrays,
modelled by `JsVal`.  The external library calls — viem's
`parseAbiParameters` and `encodeFunctionData`, and `JSON.parse` — are
function parameters returning `Except` (an exception on the left); the
claims about this routine are structural in them. -/

/-- A JavaScript value as it reaches the verifier: a string or an
array. -/
inductive JsVal where
  | str (s : List Char)
  | arr (elems : List JsVal)
  deriving Repr

/-- JS `String(v)`: strings unchanged, arrays joined with commas. -/
def jsString : JsVal → List Char
  | .str s => s
  | .arr [] => []
  | .arr [v] => jsString v
  | .arr (v :: w :: vs) => jsString v ++ ',' :: jsString (.arr (w :: vs))

/-- JS `BigInt(string)`: surrounding spaces ignored, the empty string
is `0n`, `0x` hex and optionally signed decimal digit runs convert,
anything else throws a `SyntaxError`. -/
def jsBigIntOfChars (s : List Char) : Except String Int :=
  let t := (s.dropWhile (· = ' ')).reverse.dropWhile (· = ' ') |>.reverse
  let digitsVal := fun (u : List Char) => (decDigitsVal u : Int)
  if t = [] then .ok 0
  else if t.take 2 = ['0', 'x'] ∧ (t.drop 2).all (hexCharVal · < 16) ∧ t.drop 2 ≠ [] then
    .ok ((t.drop 2).foldl (fun n c => 16 * n + (hexCharVal c : Int)) 0)
  else
    match t with
    | '-' :: rest =>
      if rest ≠ [] ∧ rest.all (·.isDigit) then .ok (-(digitsVal rest)) else
        .error ("Cannot convert " ++ ⟨s⟩ ++ " to a BigInt")
    | '+' :: rest =>
      if rest ≠ [] ∧ rest.all (·.isDigit) then .ok (digitsVal rest) else
        .error ("Cannot convert " ++ ⟨s⟩ ++ " to a BigInt")
    | _ =>
      if t.all (·.isDigit) then .ok (digitsVal t) else
        .error ("Cannot convert " ++ ⟨s⟩ ++ " to a BigInt")

/-- JS `BigInt(v)`: a non-string is first converted to its primitive
string form. -/
def jsBigInt : JsVal → Except String Int
  | .str s => jsBigIntOfChars s
  | v => jsBigIntOfChars (jsString v)

/-- A converted argument as handed to the external encoder. -/
inductive ArgVal where
  | fromJs (v : JsVal)
  | bigint (n : Int)
  | boolean (b : Bool)
  deriving Repr

/-- `s.take pat.length = pat`, JS `String.prototype.startsWith`. -/
def hasStart (pat s : List Char) : Bool :=
  s.take pat.length = pat

/-- JS `String.prototype.endsWith`. -/
def hasEnd (pat s : List Char) : Bool :=
  s.reverse.take pat.length = pat.reverse

/-- One decoded parameter of `SafeApiDataDecoded`. -/
structure SafeApiDecodedParam where
  name : List Char
  type : List Char
  value : JsVal
  deriving Repr

/-- `SafeApiDataDecoded` from `types.ts`. -/
structure SafeApiDataDecoded where
  method : List Char
  parameters : List SafeApiDecodedParam
  deriving Repr

/-- The per-parameter value conversion of `verifyDecodedData`
(`verify-decoded.ts`): address-typed and bytes-typed values pass
through, integer types go through `BigInt` (which may throw), `bool`
compares the lowercased string form with `"true"`, other array types
try `JSON.parse` with an internal catch, and everything else passes
through. -/
def convertParamValue (jsonParse : List Char → Except Unit JsVal)
    (p : SafeApiDecodedParam) : Except String ArgVal :=
  if p.type = "address".data ∨ p.type = "address[]".data then
    .ok (.fromJs p.value)
  else if hasStart "uint".data p.type ∨ hasStart "int".data p.type then
    (jsBigInt p.value).map .bigint
  else if p.type = "bool".data then
    .ok (.boolean (decide (toLowerChars (jsString p.value) = "true".data)))
  else if p.type = "bytes".data ∨ hasStart "bytes".data p.type then
    .ok (.fromJs p.value)
  else if hasEnd "[]".data p.type then
    .ok (.fromJs (match p.value with
      | .str s =>
        match jsonParse s with
        | .ok (.arr vs) => .arr vs
        | .ok parsed => .arr [parsed]
        | .error _ => p.value
      | .arr es => .arr es))
  else
    .ok (.fromJs p.value)

/-- `DecodeVerificationResult`. -/
structure DecodeVerificationResult where
  verified : Bool
  error : Option String := none
  reencoded : Option (List Nat) := none
  deriving Repr, DecidableEq

/-- `', '`-joined `"type name"` fragments handed to
`parseAbiParameters`. -/
def abiTypeLine (params : List SafeApiDecodedParam) : List Char :=
  match params with
  | [] => []
  | [p] => p.type ++ ' ' :: p.name
  | p :: q :: rest => p.type ++ ' ' :: p.name ++ ',' :: ' ' :: abiTypeLine (q :: rest)

/-- The `try` block of `verifyDecodedData`: any `Except` error models a
thrown exception reaching the surrounding `catch`.  Comparisons are on
hex digits, which carry no letter case, mirroring the source's
lowercased comparison. -/
def verifyDecodedDataTry {β : Type} (parseAbiParams : List Char → Except String β)
    (encodeFn : β → List Char → List ArgVal → Except String (List Nat))
    (jsonParse : List Char → Except Unit JsVal)
    (rawData : List Nat) (decoded : SafeApiDataDecoded) :
    Except String DecodeVerificationResult :=
  let functionSelector := rawData.take 8
  if decoded.parameters.isEmpty then
    let verified := decide (rawData = functionSelector)
    .ok { verified,
          error := if verified then none
            else some "Raw data has extra bytes beyond function selector",
          reencoded := some functionSelector }
  else
    match parseAbiParams (abiTypeLine decoded.parameters) with
    | .error e => .error e
    | .ok abiParameters =>
      match decoded.parameters.mapM (convertParamValue jsonParse) with
      | .error e => .error e
      | .ok args =>
        match encodeFn abiParameters decoded.method args with
        | .error e => .error e
        | .ok reencoded =>
          let verified := decide (reencoded = rawData)
          .ok { verified,
                error := if verified then none
                  else some "Re-encoded data does not match raw data",
                reencoded := some reencoded }

/-- `verifyDecodedData(rawData, decoded)` from `verify-decoded.ts`:
missing inputs and every exception from the `try` block are converted
to a `verified = false` result carrying an error message. -/
def verifyDecodedData {β : Type} (parseAbiParams : List Char → Except String β)
    (encodeFn : β → List Char → List ArgVal → Except String (List Nat))
    (jsonParse : List Char → Except Unit JsVal)
    (rawData : Option (List Nat)) (decoded : Option SafeApiDataDecoded) :
    DecodeVerificationResult :=
  match decoded with
  | none => { verified := false, error := some "No decoded data provided" }
  | some dec =>
    match rawData with
    | none => { verified := false, error := some "No raw data to verify against" }
    | some raw =>
      if raw = [] then
        { verified := false, error := some "No raw data to verify against" }
      else
        match verifyDecodedDataTry parseAbiParams encodeFn jsonParse raw dec with
        | .ok r => r
        | .error e =>
          { verified := false, error := some ("Verification failed: " ++ e) }

/-! ## Statement-side helpers and concrete scenario data -/

/-- Numeric rank of the risk scale: `none < low < medium < high <
critical`. -/
def riskRank : RiskLevel → Nat
  | .none => 0
  | .low => 1
  | .medium => 2
  | .high => 3
  | .critical => 4

/-- Maximum of two risk levels under `riskRank`. -/
def riskMax (a b : RiskLevel) : RiskLevel :=
  if riskRank a ≤ riskRank b then b else a

/-- Severity a sub-check result contributes to the combiner: an absent
warning level and `'info'` contribute nothing, the four graded levels
map across. -/
def severityOfLevel : Option WarningLevel → RiskLevel
  | Option.none => .none
  | some .info => .none
  | some .low => .low
  | some .medium => .medium
  | some .high => .high
  | some .critical => .critical

/-- A `multiSend` call whose packed payload is 53 zero bytes — shorter
than the 85-byte minimum record, so any record walk runs past the
buffer end. -/
def truncatedMultiSendCall : List Nat :=
  multiSendSelector ++ bytesToDigits (natToBEBytes 32 0x20) ++
    bytesToDigits (natToBEBytes 32 53) ++ List.replicate 128 0

/-- Calldata of a direct `addOwnerWithThreshold(address,uint256)` call:
selector `0x0d582f13` and two argument words. -/
def addOwnerCallBytes : List Nat :=
  [0x0d, 0x58, 0x2f, 0x13] ++ List.replicate 64 0

/-- A batch wrapping one `addOwnerWithThreshold` sub-call aimed at the
Safe itself (scenario 4 of the spec). -/
def nestedAddOwnerBatch : List Nat :=
  encodeMultiSendCall [⟨0, List.replicate 20 0x11, 0, addOwnerCallBytes⟩]


/-! ## Version-comparator lemmas and claims C9, C10 -/

theorem jsSplit_ne_nil (sep : Char) (l : List Char) : jsSplit sep l ≠ [] := by
  cases l with
  | nil => simp [jsSplit]
  | cons c cs =>
    simp only [jsSplit]
    split
    · simp
    · split <;> simp

theorem jsSplit_of_not_mem {sep : Char} {l : List Char} (h : sep ∉ l) :
    jsSplit sep l = [l] := by
  induction l with
  | nil => rfl
  | cons c cs ih =>
    have hc : ¬ c = sep := fun hcs => h (hcs ▸ List.mem_cons_self c cs)
    have hcs : sep ∉ cs := fun hm => h (List.mem_cons_of_mem c hm)
    simp only [jsSplit, if_neg hc, ih hcs]

theorem getVersion_of_not_mem {v : List Char} (h : '+' ∉ v) : getVersion v = v := by
  simp [getVersion, jsSplit_of_not_mem h]

theorem getVersion_append_suffix (v w : List Char) :
    getVersion (v ++ '+' :: w) = getVersion v := by
  induction v with
  | nil => simp [getVersion, jsSplit]
  | cons c cs ih =>
    by_cases hc : c = '+'
    · simp [getVersion, jsSplit, hc]
    · obtain ⟨s, rest, hsr⟩ := List.exists_cons_of_ne_nil (jsSplit_ne_nil '+' (cs ++ '+' :: w))
      obtain ⟨s', rest', hsr'⟩ := List.exists_cons_of_ne_nil (jsSplit_ne_nil '+' cs)
      have hh : s = s' := by
        have := ih
        simpa [getVersion, hsr, hsr'] using this
      simp [getVersion, jsSplit, hc, hsr, hsr', hh]

theorem cmpLoop_self (ps : List (Option Int)) (is : List Nat) :
    cmpLoop ps ps is = 0 := by
  induction is with
  | nil => rfl
  | cons i is ih => simp [cmpLoop, ih]

theorem compareVersions_self (v : List Char) : compareVersions v v = 0 := by
  simp [compareVersions, cmpLoop_self]

/-- C9, counterexample: `"1.4.1+L2"` is a valid dotted-triple version
with an `+L2` suffix, yet comparing it against its cleaned form yields
`-1`, not `0` — the suffix rides on the third dotted component, which
`Number()` turns into NaN and the `|| 0` fallback into `0 < 1`. -/
theorem compareVersions_clean_cex :
    compareVersions "1.4.1+L2".data (getVersion "1.4.1+L2".data) = -1 ∧
      ¬ compareVersions "1.4.1+L2".data (getVersion "1.4.1+L2".data) = 0 := by
  decide

/-- C9 (amended): stripping a `+X` tag commutes with `getVersion` for
every version string, `compareVersions v (getVersion v)` is `0` for
every suffix-free `v` (for suffixed versions it can differ, see the
counterexample), and missing trailing components count as `0`, so
`"1.3"` equals `"1.3.0"`. -/
theorem getVersion_compareVersions_spec :
    (∀ v : List Char, getVersion (v ++ "+X".data) = getVersion v) ∧
    (∀ v : List Char, '+' ∉ v → compareVersions v (getVersion v) = 0) ∧
    compareVersions "1.3".data "1.3.0".data = 0 := by
  refine ⟨fun v => ?_, fun v hv => ?_, by decide⟩
  · exact getVersion_append_suffix v ['X']
  · rw [getVersion_of_not_mem hv, compareVersions_self]

/-- Witness for C9's amended theorem at `v = "1.4.1"`. -/
theorem getVersion_compareVersions_spec_witness :
    ('+' ∉ "1.4.1".data) ∧ compareVersions "1.4.1".data (getVersion "1.4.1".data) = 0 :=
  ⟨by decide, getVersion_compareVersions_spec.2.1 "1.4.1".data (by decide)⟩

/-- C10, counterexample: the claim predicts
`compareVersions("1.x.0", "1.9.0") = 0`; the code returns `-1` because
`parts1[i] || 0` coerces the NaN component to `0`. -/
theorem compareVersions_nan_cex :
    compareVersions "1.x.0".data "1.9.0".data = -1 ∧
      ¬ compareVersions "1.x.0".data "1.9.0".data = 0 := by
  decide

/-- C10 (amended): a component that `Number()` cannot parse becomes NaN
(`jsNumber` returns `none`) and the `|| 0` fallback makes it compare as
`0`, not as equal-to-everything: `"1.x.0"` is below `"1.9.0"` and equal
to `"1.0.0"`, and `validateVersion` still accepts `"1.x.0"`. -/
theorem compareVersions_nan_as_zero :
    jsNumber "x".data = Option.none ∧
    (∀ (ps : List (Option Int)) (i : Nat), ps.getD i Option.none = Option.none →
      numPartAt ps i = 0) ∧
    compareVersions "1.x.0".data "1.9.0".data = -1 ∧
    compareVersions "1.x.0".data "1.0.0".data = 0 ∧
    validateVersion "1.x.0".data = true := by
  refine ⟨by decide, fun ps i h => ?_, by decide, by decide, by decide⟩
  simp only [numPartAt, List.getD, List.get?_eq_getElem?] at h ⊢
  simp [h]

/-- Witness for C10's amended theorem: the NaN-to-zero coercion at a
concrete parts list. -/
theorem compareVersions_nan_as_zero_witness :
    (([Option.none] : List (Option Int)).getD 0 Option.none = Option.none) ∧
      numPartAt [Option.none] 0 = 0 :=
  ⟨by decide, compareVersions_nan_as_zero.2.1 [Option.none] 0 (by decide)⟩

/-! ## Hash-calculator claims C1 and C2 -/

/-- C1: whenever `validateVersion` accepts the version string,
`calculateSafeTxHash` returns the triple whose `safeTxHash` is the
keccak256 digest of the bytes `0x19 0x01` followed by the returned
`domainHash` and then the returned `messageHash`, for every keccak
function, chain id, Safe address and transaction record. -/
theorem calculateSafeTxHash_eip712_shape (keccak : List Nat → List Nat)
    (chainId : Nat) (safeAddress : List Char) (txData : SafeTransactionData)
    (version : List Char) (hv : validateVersion version = true) :
    calculateSafeTxHash keccak chainId safeAddress txData version =
      some { domainHash := calculateDomainHash keccak chainId safeAddress version,
             messageHash := calculateMessageHash keccak txData version,
             safeTxHash := keccak (0x19 :: 0x01 ::
               (calculateDomainHash keccak chainId safeAddress version ++
                 calculateMessageHash keccak txData version)) } := by
  simp [calculateSafeTxHash, hv]

/-- Witness for C1 at chain id 1, version `"1.3.0"` and a constant
digest function. -/
theorem calculateSafeTxHash_eip712_shape_witness :
    validateVersion "1.3.0".data = true ∧
    calculateSafeTxHash (fun _ => [7]) 1
      "0xf65475e74C1Ed6d004d5240b06E3088724dFDA5d".data
      ⟨"0x1111111111111111111111111111111111111111".data, 0, [], 0, 0, 0, 0,
        ZERO_ADDRESS, ZERO_ADDRESS, 0⟩ "1.3.0".data =
      some { domainHash := [7], messageHash := [7], safeTxHash := [7] } := by
  constructor
  · decide
  · rw [calculateSafeTxHash_eip712_shape _ _ _ _ _ (by decide)]
    decide

/-- C2: for every keccak function, chain id and Safe address,
`calculateDomainHash` hashes the legacy `(typeHash, safeAddress)`
encoding when the cleaned version is `<= 1.2.0` — and is then
independent of the chain id — and hashes the current
`(typeHash, chainId, safeAddress)` encoding for every later version. -/
theorem calculateDomainHash_version_split (keccak : List Nat → List Nat)
    (chainId chainId' : Nat) (safeAddress version : List Char) :
    (isVersionLte (getVersion version) "1.2.0".data = true →
      calculateDomainHash keccak chainId safeAddress version =
        keccak (abiWord DOMAIN_SEPARATOR_TYPEHASH_OLD ++
          abiWordOfAddress safeAddress) ∧
      calculateDomainHash keccak chainId safeAddress version =
        calculateDomainHash keccak chainId' safeAddress version) ∧
    (isVersionLte (getVersion version) "1.2.0".data = false →
      calculateDomainHash keccak chainId safeAddress version =
        keccak (abiWord DOMAIN_SEPARATOR_TYPEHASH ++ abiWord chainId ++
          abiWordOfAddress safeAddress)) := by
  constructor <;> intro h <;> simp [calculateDomainHash, h]

/-- Witness for C2 at versions `"1.1.1+L2"` (legacy branch, chain ids 1
and 5) and `"1.3.0"` (current branch). -/
theorem calculateDomainHash_version_split_witness :
    (isVersionLte (getVersion "1.1.1+L2".data) "1.2.0".data = true ∧
      calculateDomainHash (fun bs => bs.take 1) 1
          "0x1111111111111111111111111111111111111111".data "1.1.1+L2".data =
        calculateDomainHash (fun bs => bs.take 1) 5
          "0x1111111111111111111111111111111111111111".data "1.1.1+L2".data) ∧
    (isVersionLte (getVersion "1.3.0".data) "1.2.0".data = false ∧
      calculateDomainHash (fun bs => bs.take 1) 1
          "0x1111111111111111111111111111111111111111".data "1.3.0".data =
        (fun bs : List Nat => bs.take 1) (abiWord DOMAIN_SEPARATOR_TYPEHASH ++
          abiWord 1 ++ abiWordOfAddress
            "0x1111111111111111111111111111111111111111".data)) :=
  ⟨⟨by decide,
    ((calculateDomainHash_version_split (fun bs => bs.take 1) 1 5
      "0x1111111111111111111111111111111111111111".data "1.1.1+L2".data).1
      (by decide)).2⟩,
   ⟨by decide,
    (calculateDomainHash_version_split (fun bs => bs.take 1) 1 5
      "0x1111111111111111111111111111111111111111".data "1.3.0".data).2
      (by decide)⟩⟩

/-! ## Gas-token claim C4 -/

/-- C4: the gas-token risk matrix — both customizations plus a non-zero
gas price give `critical` with exactly the two warnings (the second
mentioning the non-zero price), both customizations with a zero price
give `high` with one warning, a lone custom gas token gives `medium`, a
lone custom refund receiver gives `low`, and neither gives `none` with
no warnings; customness is case-insensitive inequality with the zero
address. -/
theorem checkGasTokenAttack_matrix (gasPrice : Nat)
    (gasToken refundReceiver : List Char) :
    (toLowerChars gasToken ≠ toLowerChars ZERO_ADDRESS →
      toLowerChars refundReceiver ≠ toLowerChars ZERO_ADDRESS →
      0 < gasPrice →
      (checkGasTokenAttack gasPrice gasToken refundReceiver).riskLevel = .critical ∧
      (checkGasTokenAttack gasPrice gasToken refundReceiver).warnings =
        [gasTokenComboWarning, gasTokenNonZeroPriceWarning] ∧
      List.IsInfix "non-zero".data gasTokenNonZeroPriceWarning.data) ∧
    (toLowerChars gasToken ≠ toLowerChars ZERO_ADDRESS →
      toLowerChars refundReceiver ≠ toLowerChars ZERO_ADDRESS →
      gasPrice = 0 →
      (checkGasTokenAttack gasPrice gasToken refundReceiver).riskLevel = .high ∧
      (checkGasTokenAttack gasPrice gasToken refundReceiver).warnings =
        [gasTokenComboWarning]) ∧
    (toLowerChars gasToken ≠ toLowerChars ZERO_ADDRESS →
      toLowerChars refundReceiver = toLowerChars ZERO_ADDRESS →
      (checkGasTokenAttack gasPrice gasToken refundReceiver).riskLevel = .medium) ∧
    (toLowerChars gasToken = toLowerChars ZERO_ADDRESS →
      toLowerChars refundReceiver ≠ toLowerChars ZERO_ADDRESS →
      (checkGasTokenAttack gasPrice gasToken refundReceiver).riskLevel = .low) ∧
    (toLowerChars gasToken = toLowerChars ZERO_ADDRESS →
      toLowerChars refundReceiver = toLowerChars ZERO_ADDRESS →
      (checkGasTokenAttack gasPrice gasToken refundReceiver).riskLevel = .none ∧
      (checkGasTokenAttack gasPrice gasToken refundReceiver).warnings = []) := by
  refine ⟨fun h1 h2 h3 => ?_, fun h1 h2 h3 => ?_, fun h1 h2 => ?_,
    fun h1 h2 => ?_, fun h1 h2 => ?_⟩ <;>
    simp [checkGasTokenAttack, h1, h2, *]
  exact ⟨"Furthermore, the gas price is ".data,
    ", which increases the potential for hidden value transfers.".data, by decide⟩

/-- Witness for C4: a concrete critical-path and none-path
instantiation. -/
theorem checkGasTokenAttack_matrix_witness :
    ((checkGasTokenAttack 5 "0x1111111111111111111111111111111111111111".data
        "0x2222222222222222222222222222222222222222".data).riskLevel = .critical ∧
      (checkGasTokenAttack 5 "0x1111111111111111111111111111111111111111".data
        "0x2222222222222222222222222222222222222222".data).warnings =
        [gasTokenComboWarning, gasTokenNonZeroPriceWarning] ∧
      List.IsInfix "non-zero".data gasTokenNonZeroPriceWarning.data) ∧
    ((checkGasTokenAttack 0 ZERO_ADDRESS ZERO_ADDRESS).riskLevel = .none ∧
      (checkGasTokenAttack 0 ZERO_ADDRESS ZERO_ADDRESS).warnings = []) :=
  ⟨(checkGasTokenAttack_matrix 5
      "0x1111111111111111111111111111111111111111".data
      "0x2222222222222222222222222222222222222222".data).1
      (by decide) (by decide) (by decide),
   (checkGasTokenAttack_matrix 0 ZERO_ADDRESS ZERO_ADDRESS).2.2.2.2
      (by decide) (by decide)⟩

/-! ## Decoded-data verifier claim C7 -/

theorem verifyDecodedDataTry_ok_inv {β : Type}
    (parseAbiParams : List Char → Except String β)
    (encodeFn : β → List Char → List ArgVal → Except String (List Nat))
    (jsonParse : List Char → Except Unit JsVal)
    (raw : List Nat) (dec : SafeApiDataDecoded) (r : DecodeVerificationResult)
    (h : verifyDecodedDataTry parseAbiParams encodeFn jsonParse raw dec = .ok r) :
    r.verified = true ↔ r.error = Option.none := by
  unfold verifyDecodedDataTry at h
  split at h
  · rcases hb : decide (raw = raw.take 8) <;> simp only [hb] at h <;>
      cases h <;> simp
  · split at h
    · simp at h
    · split at h
      · simp at h
      · split at h
        · simp at h
        · rename_i reencoded heq
          rw [Except.ok.injEq] at h
          subst h
          by_cases hb : reencoded = raw <;> simp [hb]

/-- C7: the verifier is a total function into `DecodeVerificationResult`
(no exception escapes, whatever the external ABI parser/encoder and
`JSON.parse` do or throw and whatever the decoded claim contains), and
its result carries an error message exactly when `verified` is
`false`. -/
theorem verifyDecodedData_error_discipline {β : Type}
    (parseAbiParams : List Char → Except String β)
    (encodeFn : β → List Char → List ArgVal → Except String (List Nat))
    (jsonParse : List Char → Except Unit JsVal)
    (rawData : Option (List Nat)) (decoded : Option SafeApiDataDecoded) :
    ((verifyDecodedData parseAbiParams encodeFn jsonParse rawData decoded).verified = true ↔
      (verifyDecodedData parseAbiParams encodeFn jsonParse rawData decoded).error =
        Option.none) ∧
    ((verifyDecodedData parseAbiParams encodeFn jsonParse rawData decoded).verified = false ↔
      ∃ msg, (verifyDecodedData parseAbiParams encodeFn jsonParse rawData decoded).error =
        some msg) := by
  have main : (verifyDecodedData parseAbiParams encodeFn jsonParse rawData decoded).verified =
      true ↔ (verifyDecodedData parseAbiParams encodeFn jsonParse rawData decoded).error =
      Option.none := by
    rcases decoded with _ | dec
    · simp [verifyDecodedData]
    rcases rawData with _ | raw
    · simp [verifyDecodedData]
    by_cases hraw : raw = []
    · simp [verifyDecodedData, hraw]
    · cases htry : verifyDecodedDataTry parseAbiParams encodeFn jsonParse raw dec with
      | error e => simp [verifyDecodedData, hraw, htry]
      | ok r =>
        simpa [verifyDecodedData, hraw, htry] using
          verifyDecodedDataTry_ok_inv _ _ _ _ _ _ htry
  refine ⟨main, ?_, ?_⟩
  · intro hv
    rcases he : (verifyDecodedData parseAbiParams encodeFn jsonParse rawData decoded).error
      with _ | msg
    · exact absurd (main.mpr he) (by simp [hv])
    · exact ⟨msg, rfl⟩
  · rintro ⟨msg, he⟩
    cases hb : (verifyDecodedData parseAbiParams encodeFn jsonParse rawData decoded).verified
    · rfl
    · have hnone := main.mp hb
      rw [he] at hnone
      simp at hnone

/-! ## Security analyzer combiner, claim C5 -/

theorem overallRiskChain_eq_max (w1 : Option WarningLevel) (g : RiskLevel)
    (wo wm : WarningLevel) :
    overallRiskChain w1 g wo wm =
      riskMax (riskMax (riskMax (severityOfLevel w1) g)
        (severityOfLevel (some wo))) (severityOfLevel (some wm)) := by
  revert w1 g wo wm
  decide

/-- C5: `analyzeSecurity`'s `overallRisk` is the maximum severity of
the four sub-check results under `none < low < medium < high <
critical` (an absent or `'info'` level contributing `none`), and
`requiresCarefulReview` holds exactly when the overall risk is high or
critical, the delegate-call check produced a warning, the gas-token
warning list is non-empty, the owner check matched, or the module/guard
check matched. -/
theorem analyzeSecurity_verdict (txData : SafeTransactionData) :
    (analyzeSecurity txData).overallRisk =
      riskMax (riskMax (riskMax
        (severityOfLevel (analyzeSecurity txData).delegateCall.warningLevel)
        (analyzeSecurity txData).gasToken.riskLevel)
        (severityOfLevel (some (analyzeSecurity txData).ownerModification.warningLevel)))
        (severityOfLevel (some (analyzeSecurity txData).moduleGuard.warningLevel)) ∧
    ((analyzeSecurity txData).requiresCarefulReview = true ↔
      ((analyzeSecurity txData).overallRisk = .critical ∨
       (analyzeSecurity txData).overallRisk = .high ∨
       (analyzeSecurity txData).delegateCall.warningLevel.isSome = true ∨
       (analyzeSecurity txData).gasToken.warnings ≠ [] ∨
       (analyzeSecurity txData).ownerModification.modifiesOwners = true ∨
       (analyzeSecurity txData).moduleGuard.hasModuleOperation = true ∨
       (analyzeSecurity txData).moduleGuard.hasGuardOperation = true)) := by
  constructor
  · simp only [analyzeSecurity]
    exact overallRiskChain_eq_max _ _ _ _
  · simp only [analyzeSecurity, decide_eq_true_eq]
    constructor
    · intro h
      rcases h with h | h | h | h | h | h | h
      · exact Or.inl h
      · exact Or.inr (Or.inl h)
      · exact Or.inr (Or.inr (Or.inl h))
      · exact Or.inr (Or.inr (Or.inr (Or.inl (by
          intro hnil
          rw [hnil] at h
          simp at h))))
      · exact Or.inr (Or.inr (Or.inr (Or.inr (Or.inl h))))
      · exact Or.inr (Or.inr (Or.inr (Or.inr (Or.inr (Or.inl h)))))
      · exact Or.inr (Or.inr (Or.inr (Or.inr (Or.inr (Or.inr h)))))
    · intro h
      rcases h with h | h | h | h | h | h | h
      · exact Or.inl h
      · exact Or.inr (Or.inl h)
      · exact Or.inr (Or.inr (Or.inl h))
      · exact Or.inr (Or.inr (Or.inr (Or.inl (List.length_pos.mpr h))))
      · exact Or.inr (Or.inr (Or.inr (Or.inr (Or.inl h))))
      · exact Or.inr (Or.inr (Or.inr (Or.inr (Or.inr (Or.inl h)))))
      · exact Or.inr (Or.inr (Or.inr (Or.inr (Or.inr (Or.inr h)))))

/-! ## MultiSend decoder lemmas -/

theorem length_natToBEBytes (k : Nat) : ∀ n, (natToBEBytes k n).length = k := by
  induction k with
  | zero => intro n; rfl
  | succ k ih => intro n; simp [natToBEBytes, ih]

theorem bytesToDigits_append (xs ys : List Nat) :
    bytesToDigits (xs ++ ys) = bytesToDigits xs ++ bytesToDigits ys := by
  simp [bytesToDigits]

theorem bytesToDigits_cons (b : Nat) (bs : List Nat) :
    bytesToDigits (b :: bs) = byteToDigits b ++ bytesToDigits bs := by
  simp [bytesToDigits]

theorem length_bytesToDigits (bs : List Nat) :
    (bytesToDigits bs).length = 2 * bs.length := by
  induction bs with
  | nil => rfl
  | cons b bs ih => simp [bytesToDigits_cons, byteToDigits, ih] at ih ⊢; omega

theorem hexVal_foldl (ys : List Nat) : ∀ a : Nat,
    ys.foldl (fun n d => 16 * n + d) a = a * 16 ^ ys.length + hexVal ys := by
  induction ys with
  | nil => intro a; simp [hexVal]
  | cons d ds ih =>
    intro a
    simp only [hexVal] at ih ⊢
    simp only [List.foldl_cons, List.length_cons]
    rw [ih (16 * a + d), ih (16 * 0 + d)]
    ring

theorem hexVal_append (xs ys : List Nat) :
    hexVal (xs ++ ys) = hexVal xs * 16 ^ ys.length + hexVal ys := by
  simp only [hexVal, List.foldl_append]
  exact hexVal_foldl ys _

theorem hexVal_byteToDigits {b : Nat} (hb : b < 256) :
    hexVal (byteToDigits b) = b := by
  simp only [byteToDigits, hexVal, List.foldl]
  omega

theorem hexVal_word (k : Nat) : ∀ n,
    hexVal (bytesToDigits (natToBEBytes k n)) = n % 2 ^ (8 * k) := by
  induction k with
  | zero => intro n; simp [natToBEBytes, bytesToDigits, hexVal, Nat.mod_one]
  | succ k ih =>
    intro n
    have hb : n % 256 < 256 := Nat.mod_lt _ (by omega)
    rw [natToBEBytes, bytesToDigits_append, hexVal_append]
    have h1 : bytesToDigits [n % 256] = byteToDigits (n % 256) := by
      simp [bytesToDigits]
    rw [h1, hexVal_byteToDigits hb, ih (n / 256)]
    have hlen2 : (byteToDigits (n % 256)).length = 2 := rfl
    rw [hlen2, show (16 : Nat) ^ 2 = 256 by norm_num]
    have hpow : 2 ^ (8 * (k + 1)) = 256 * 2 ^ (8 * k) := by
      rw [show 8 * (k + 1) = 8 + 8 * k by ring, Nat.pow_add]
    rw [hpow, Nat.mod_mul]
    omega

theorem hexVal_word32 {n : Nat} (hn : n < 2 ^ 256) :
    hexVal (bytesToDigits (natToBEBytes 32 n)) = n := by
  rw [hexVal_word 32 n]
  exact Nat.mod_eq_of_lt (by simpa using hn)

theorem length_encodeSubCall (s : SubCall) (h20 : s.«to».length = 20) :
    (encodeSubCall s).length = 85 + s.data.length := by
  simp [encodeSubCall, length_natToBEBytes, h20]
  omega

/-- One record step of the walk over an exactly encoded record followed
by arbitrary trailing digits. -/
theorem multiSendWalkFuel_record (fuel : Nat) (s : SubCall) (hwf : s.WellFormed)
    (hlen : s.data.length < 2 ^ 256) (rest : List Nat) :
    multiSendWalkFuel (fuel + 1) (bytesToDigits (encodeSubCall s) ++ rest) =
      match multiSendWalkFuel fuel rest with
      | Option.none => Option.none
      | some rs => some (s.toDecoded :: rs) := by
  obtain ⟨hop, hto, _, hval, _⟩ := hwf
  have hsplit : bytesToDigits (encodeSubCall s) ++ rest =
      byteToDigits s.operation ++ (bytesToDigits s.«to» ++
        (bytesToDigits (natToBEBytes 32 s.value) ++
          (bytesToDigits (natToBEBytes 32 s.data.length) ++
            (bytesToDigits s.data ++ rest)))) := by
    simp [encodeSubCall, bytesToDigits_cons, bytesToDigits_append,
      List.append_assoc]
  have hcons : ∃ c cs, bytesToDigits (encodeSubCall s) ++ rest = c :: cs := by
    rw [hsplit]
    exact ⟨_, _, rfl⟩
  obtain ⟨c, cs, hc⟩ := hcons
  have hca : c :: cs =
      byteToDigits s.operation ++ (bytesToDigits s.«to» ++
        (bytesToDigits (natToBEBytes 32 s.value) ++
          (bytesToDigits (natToBEBytes 32 s.data.length) ++
            (bytesToDigits s.data ++ rest)))) := hc.symm.trans hsplit
  have lop : (byteToDigits s.operation).length = 2 := rfl
  have lto : (bytesToDigits s.«to»).length = 40 := by
    rw [length_bytesToDigits, hto]
  have lval : (bytesToDigits (natToBEBytes 32 s.value)).length = 64 := by
    rw [length_bytesToDigits, length_natToBEBytes]
  have llen : (bytesToDigits (natToBEBytes 32 s.data.length)).length = 64 := by
    rw [length_bytesToDigits, length_natToBEBytes]
  have ldat : (bytesToDigits s.data).length = 2 * s.data.length :=
    length_bytesToDigits _
  -- the slices the loop body reads
  have htake2 : (c :: cs).take 2 = byteToDigits s.operation := by
    rw [hca]; exact List.take_left' lop
  have hdrop2 : (c :: cs).drop 2 = bytesToDigits s.«to» ++
      (bytesToDigits (natToBEBytes 32 s.value) ++
        (bytesToDigits (natToBEBytes 32 s.data.length) ++
          (bytesToDigits s.data ++ rest))) := by
    rw [hca]; exact List.drop_left' lop
  have hdrop42 : (c :: cs).drop 42 =
      bytesToDigits (natToBEBytes 32 s.value) ++
        (bytesToDigits (natToBEBytes 32 s.data.length) ++
          (bytesToDigits s.data ++ rest)) := by
    rw [show (42 : Nat) = 2 + 40 by rfl, ← List.drop_drop, hdrop2]
    exact List.drop_left' lto
  have hdrop106 : (c :: cs).drop 106 =
      bytesToDigits (natToBEBytes 32 s.data.length) ++
        (bytesToDigits s.data ++ rest) := by
    rw [show (106 : Nat) = 42 + 64 by rfl, ← List.drop_drop, hdrop42]
    exact List.drop_left' lval
  have hdrop170 : (c :: cs).drop 170 = bytesToDigits s.data ++ rest := by
    rw [show (170 : Nat) = 106 + 64 by rfl, ← List.drop_drop, hdrop106]
    exact List.drop_left' llen
  have hvne : bytesToDigits (natToBEBytes 32 s.value) ≠ [] := by
    intro hnil
    rw [hnil] at lval
    simp at lval
  have hlne : bytesToDigits (natToBEBytes 32 s.data.length) ≠ [] := by
    intro hnil
    rw [hnil] at llen
    simp at llen
  have hdropfin : (c :: cs).drop (170 + 2 * s.data.length) = rest := by
    rw [← List.drop_drop, hdrop170]
    exact List.drop_left' ldat
  rw [hc]
  simp only [multiSendWalkFuel, htake2, hdrop2, hdrop42, hdrop106, hdrop170,
    hdropfin, List.take_left' lto, List.take_left' lval, List.take_left' llen,
    List.take_left' ldat,
    hexVal_byteToDigits hop, hexVal_word32 hval, hexVal_word32 hlen,
    hvne, if_false, hlne, SubCall.toDecoded]

/-- Unwrapping a canonically encoded `multiSend(bytes)` call returns
exactly the payload digits, whatever trailing padding follows. -/
theorem decodeMultiSendArg_canonical (payload pad : List Nat)
    (hp : payload.length < 2 ^ 256) :
    decodeMultiSendArg (multiSendSelector ++
      (bytesToDigits (natToBEBytes 32 0x20) ++
        (bytesToDigits (natToBEBytes 32 payload.length) ++
          (bytesToDigits payload ++ pad)))) =
      some (bytesToDigits payload) := by
  have hsel : multiSendSelector.length = 8 := rfl
  have lw : ∀ m : Nat, (bytesToDigits (natToBEBytes 32 m)).length = 64 := fun m => by
    rw [length_bytesToDigits, length_natToBEBytes]
  have ldat : (bytesToDigits payload).length = 2 * payload.length :=
    length_bytesToDigits _
  have hTlen : (bytesToDigits (natToBEBytes 32 0x20) ++
      (bytesToDigits (natToBEBytes 32 payload.length) ++
        (bytesToDigits payload ++ pad))).length =
      128 + 2 * payload.length + pad.length := by
    simp [List.length_append, lw, ldat]
    omega
  have htake8 : (multiSendSelector ++
      (bytesToDigits (natToBEBytes 32 0x20) ++
        (bytesToDigits (natToBEBytes 32 payload.length) ++
          (bytesToDigits payload ++ pad)))).take 8 = multiSendSelector :=
    List.take_left' hsel
  have hdrop8 : (multiSendSelector ++
      (bytesToDigits (natToBEBytes 32 0x20) ++
        (bytesToDigits (natToBEBytes 32 payload.length) ++
          (bytesToDigits payload ++ pad)))).drop 8 =
      bytesToDigits (natToBEBytes 32 0x20) ++
        (bytesToDigits (natToBEBytes 32 payload.length) ++
          (bytesToDigits payload ++ pad)) :=
    List.drop_left' hsel
  have htake64 : (bytesToDigits (natToBEBytes 32 0x20) ++
      (bytesToDigits (natToBEBytes 32 payload.length) ++
        (bytesToDigits payload ++ pad))).take 64 =
      bytesToDigits (natToBEBytes 32 0x20) :=
    List.take_left' (lw 0x20)
  have hexW1 : hexVal (bytesToDigits (natToBEBytes 32 0x20)) = 32 :=
    hexVal_word32 (by norm_num)
  have hdrop64 : (bytesToDigits (natToBEBytes 32 0x20) ++
      (bytesToDigits (natToBEBytes 32 payload.length) ++
        (bytesToDigits payload ++ pad))).drop (32 * 2) =
      bytesToDigits (natToBEBytes 32 payload.length) ++
        (bytesToDigits payload ++ pad) := by
    rw [show (32 * 2 : Nat) = 64 by norm_num]
    exact List.drop_left' (lw 0x20)
  have htake64b : (bytesToDigits (natToBEBytes 32 payload.length) ++
      (bytesToDigits payload ++ pad)).take 64 =
      bytesToDigits (natToBEBytes 32 payload.length) :=
    List.take_left' (lw payload.length)
  have hexW2 : hexVal (bytesToDigits (natToBEBytes 32 payload.length)) =
      payload.length := hexVal_word32 hp
  have hdrop128 : (bytesToDigits (natToBEBytes 32 0x20) ++
      (bytesToDigits (natToBEBytes 32 payload.length) ++
        (bytesToDigits payload ++ pad))).drop (32 * 2 + 64) =
      bytesToDigits payload ++ pad := by
    rw [show (32 * 2 + 64 : Nat) = 64 + 64 by norm_num, ← List.drop_drop,
      show (64 : Nat) = 32 * 2 by norm_num, hdrop64,
      show (32 * 2 : Nat) = 64 by norm_num]
    exact List.drop_left' (lw payload.length)
  have htakedat : (bytesToDigits payload ++ pad).take (2 * payload.length) =
      bytesToDigits payload :=
    List.take_left' ldat
  simp only [decodeMultiSendArg, htake8, hdrop8, List.length_append, hsel,
    hTlen]
  rw [if_neg (by omega), if_neg (by simp), if_neg (by omega)]
  rw [htake64, hexW1, if_neg (by omega), hdrop64, htake64b, hexW2,
    if_neg (by omega), hdrop128, htakedat]

/-- The record walk inverts the packed encoder on well-formed
sub-calls. -/
theorem multiSendWalkFuel_encodePacked (subs : List SubCall)
    (hwf : ∀ s ∈ subs, s.WellFormed) (hlen : ∀ s ∈ subs, s.data.length < 2 ^ 256) :
    ∀ fuel, (bytesToDigits (encodePacked subs)).length ≤ fuel →
      multiSendWalkFuel fuel (bytesToDigits (encodePacked subs)) =
        some (subs.map SubCall.toDecoded) := by
  induction subs with
  | nil =>
    intro fuel _
    cases fuel <;> rfl
  | cons s rest ih =>
    intro fuel hf
    have hw := hwf s (List.mem_cons_self _ _)
    have hl := hlen s (List.mem_cons_self _ _)
    have hsplit : bytesToDigits (encodePacked (s :: rest)) =
        bytesToDigits (encodeSubCall s) ++ bytesToDigits (encodePacked rest) := by
      simp [encodePacked, bytesToDigits_append]
    have hreclen : (bytesToDigits (encodeSubCall s)).length =
        170 + 2 * s.data.length := by
      rw [length_bytesToDigits, length_encodeSubCall s hw.2.1]
      omega
    have hflen : 170 + 2 * s.data.length +
        (bytesToDigits (encodePacked rest)).length ≤ fuel := by
      rw [hsplit, List.length_append, hreclen] at hf
      omega
    obtain ⟨f, rfl⟩ : ∃ f, fuel = f + 1 := by
      cases fuel with
      | zero => omega
      | succ f => exact ⟨f, rfl⟩
    rw [hsplit, multiSendWalkFuel_record f s hw hl,
      ih (fun t ht => hwf t (List.mem_cons_of_mem _ ht))
        (fun t ht => hlen t (List.mem_cons_of_mem _ ht)) f (by omega)]
    rfl

/-- C8: decoding a canonically encoded batch — each record
`1 + 20 + 32 + 32 + L` bytes, concatenated without delimiters and
wrapped in the `multiSend` call — reproduces the original sub-call
sequence exactly, zero-length payloads included, for every sequence of
well-formed sub-calls whose packed image fits the 32-byte length
field. -/
theorem decodeMultiSend_roundtrip (subs : List SubCall)
    (hwf : ∀ s ∈ subs, s.WellFormed)
    (hlen : ∀ s ∈ subs, s.data.length < 2 ^ 256)
    (hp : (encodePacked subs).length < 2 ^ 256) :
    decodeMultiSend (encodeMultiSendCall subs) =
      some (subs.map SubCall.toDecoded) := by
  have hdata : encodeMultiSendCall subs = multiSendSelector ++
      (bytesToDigits (natToBEBytes 32 0x20) ++
        (bytesToDigits (natToBEBytes 32 (encodePacked subs).length) ++
          (bytesToDigits (encodePacked subs) ++
            List.replicate ((32 - (encodePacked subs).length % 32) % 32 * 2) 0))) := by
    simp [encodeMultiSendCall, List.append_assoc]
  unfold decodeMultiSend
  rw [hdata, decodeMultiSendArg_canonical _ _ hp]
  exact multiSendWalkFuel_encodePacked subs hwf hlen _ le_rfl

/-- Witness for C8: a two-record batch, the second record with an empty
payload, decodes back to itself. -/
theorem decodeMultiSend_roundtrip_witness :
    ((∀ s ∈ [(⟨0, List.replicate 20 0xab, 5, [1, 2]⟩ : SubCall),
        ⟨1, List.replicate 20 7, 0, []⟩], s.WellFormed) ∧
      (∀ s ∈ [(⟨0, List.replicate 20 0xab, 5, [1, 2]⟩ : SubCall),
        ⟨1, List.replicate 20 7, 0, []⟩], s.data.length < 2 ^ 256) ∧
      (encodePacked [(⟨0, List.replicate 20 0xab, 5, [1, 2]⟩ : SubCall),
        ⟨1, List.replicate 20 7, 0, []⟩]).length < 2 ^ 256) ∧
    decodeMultiSend (encodeMultiSendCall
      [(⟨0, List.replicate 20 0xab, 5, [1, 2]⟩ : SubCall),
        ⟨1, List.replicate 20 7, 0, []⟩]) =
      some [⟨0, bytesToDigits (List.replicate 20 0xab), 5, [0, 1, 0, 2]⟩,
        ⟨1, bytesToDigits (List.replicate 20 7), 0, []⟩] :=
  ⟨⟨by decide, by decide, by decide⟩, by
    rw [decodeMultiSend_roundtrip _ (by decide) (by decide) (by decide)]
    decide⟩

/-! ## Decoder failure policy, claim C3 -/

/-- C3, counterexample: a well-formed `multiSend` wrapper whose packed
payload is 53 zero bytes (106 digits — shorter than the 85-byte minimum
record, so the walk runs past the buffer end at the data-length field)
does **not** decode to `null`: `parseInt` yields NaN there, the
truncated record is pushed with empty data, and a one-record list is
returned. -/
theorem decodeMultiSend_truncation_cex :
    decodeMultiSendArg truncatedMultiSendCall = some (List.replicate 106 0) ∧
    (List.replicate 106 0 : List Nat).length < 170 ∧
    decodeMultiSend truncatedMultiSendCall =
      some [⟨0, List.replicate 40 0, 0, []⟩] := by
  refine ⟨by decide, by decide, by decide⟩

/-- C3 (amended): `decodeMultiSend` returns `null` rather than throwing
whenever the outer selector is not the `multiSend` wrapper's; when the
record walk overruns the buffer it returns `null` only if the truncated
record breaks off at or before its 32-byte value field (at most 21
bytes of record remain) — a record truncated later (between 22 and 53
bytes) is emitted with empty data and a non-null list is returned. -/
theorem decodeMultiSend_failure_modes :
    (∀ data : List Nat, data.take 8 ≠ multiSendSelector →
      decodeMultiSend data = Option.none) ∧
    (∀ data p, decodeMultiSendArg data = some p → 0 < p.length →
      p.length ≤ 42 → decodeMultiSend data = Option.none) ∧
    (∀ data p, decodeMultiSendArg data = some p → 43 ≤ p.length →
      p.length ≤ 106 → decodeMultiSend data =
        some [⟨hexVal (p.take 2), (p.drop 2).take 40,
          hexVal ((p.drop 42).take 64), []⟩]) := by
  refine ⟨fun data h => ?_, fun data p harg h1 h2 => ?_, fun data p harg h1 h2 => ?_⟩
  · by_cases h8 : data.length < 8
    · simp [decodeMultiSend, decodeMultiSendArg, h8]
    · simp [decodeMultiSend, decodeMultiSendArg, h8, h]
  · unfold decodeMultiSend
    rw [harg]
    obtain ⟨c, cs, rfl⟩ : ∃ c cs, p = c :: cs := by
      cases p with
      | nil => simp at h1
      | cons c cs => exact ⟨c, cs, rfl⟩
    have hd42 : (c :: cs).drop 42 = [] :=
      List.drop_eq_nil_of_le (by simpa using h2)
    simp [multiSendWalk, multiSendWalkFuel, hd42]
  · unfold decodeMultiSend
    rw [harg]
    obtain ⟨c, cs, rfl⟩ : ∃ c cs, p = c :: cs := by
      cases p with
      | nil => simp at h1
      | cons c cs => exact ⟨c, cs, rfl⟩
    simp only [List.length_cons] at h1 h2
    have hv : (((c :: cs).drop 42).take 64) ≠ [] := by
      intro hnil
      have hlen0 : (((c :: cs).drop 42).take 64).length = 0 := by
        rw [hnil]; rfl
      rw [List.length_take, List.length_drop] at hlen0
      simp only [List.length_cons] at hlen0
      rcases Nat.min_eq_zero_iff.mp hlen0 with h64 | hrest <;> omega
    have hd106 : (c :: cs).drop 106 = [] :=
      List.drop_eq_nil_of_le (by simp; omega)
    simp [multiSendWalk, multiSendWalkFuel, hv, hd106]
    omega

/-- Witness for C3's amended theorem: a wrong selector yields `null`,
and the 53-byte truncation yields the non-null single record. -/
theorem decodeMultiSend_failure_modes_witness :
    (([0, 0, 0, 0, 0, 0, 0, 0] : List Nat).take 8 ≠ multiSendSelector ∧
      decodeMultiSend [0, 0, 0, 0, 0, 0, 0, 0] = Option.none) ∧
    (decodeMultiSendArg truncatedMultiSendCall = some (List.replicate 106 0) ∧
      43 ≤ (List.replicate 106 0 : List Nat).length ∧
      (List.replicate 106 0 : List Nat).length ≤ 106 ∧
      decodeMultiSend truncatedMultiSendCall =
        some [⟨hexVal ((List.replicate 106 0 : List Nat).take 2),
          ((List.replicate 106 0 : List Nat).drop 2).take 40,
          hexVal (((List.replicate 106 0 : List Nat).drop 42).take 64), []⟩]) :=
  ⟨⟨by decide, decodeMultiSend_failure_modes.1 _ (by decide)⟩,
   ⟨by decide, by decide, by decide,
    decodeMultiSend_failure_modes.2.2 truncatedMultiSendCall _ (by decide)
      (by decide) (by decide)⟩⟩

/-! ## Owner-modification check, claim C6 -/

theorem flatMap_congr {α β : Type} {l : List α} {f g : α → List β}
    (h : ∀ a ∈ l, f a = g a) : l.flatMap f = l.flatMap g := by
  induction l with
  | nil => rfl
  | cons a as ih =>
    simp only [List.flatMap_cons]
    rw [h a (List.mem_cons_self _ _), ih (fun b hb => h b (List.mem_cons_of_mem _ hb))]

/-- Every record the walk produces carries strictly fewer digits of data
than the packed buffer it was read from. -/
theorem multiSendWalkFuel_data_lt : ∀ (fuel : Nat) (rem : List Nat)
    (rs : List DecodedMultiSendTransaction),
    multiSendWalkFuel fuel rem = some rs → ∀ r ∈ rs, r.data.length < rem.length := by
  intro fuel
  induction fuel with
  | zero =>
    intro rem rs h r hr
    cases rem with
    | nil =>
      simp only [multiSendWalkFuel, Option.some.injEq] at h
      subst h
      simp at hr
    | cons c cs => simp [multiSendWalkFuel] at h
  | succ fuel ih =>
    intro rem rs h r hr
    cases rem with
    | nil =>
      simp only [multiSendWalkFuel, Option.some.injEq] at h
      subst h
      simp at hr
    | cons c cs =>
      simp only [multiSendWalkFuel] at h
      by_cases hv : ((c :: cs).drop 42).take 64 = []
      · rw [if_pos hv] at h
        simp at h
      · rw [if_neg hv] at h
        by_cases hd : ((c :: cs).drop 106).take 64 = []
        · rw [if_pos hd] at h
          simp only [Option.some.injEq] at h
          subst h
          simp only [List.mem_singleton] at hr
          subst hr
          simp
        · rw [if_neg hd] at h
          cases hrec : multiSendWalkFuel fuel
              ((c :: cs).drop (170 + 2 * hexVal (((c :: cs).drop 106).take 64))) <;>
            rw [hrec] at h
          · simp at h
          · rename_i rest'
            simp only [Option.some.injEq] at h
            subst h
            rcases List.mem_cons.mp hr with hhd | htl
            · subst hhd
              simp only [List.length_take, List.length_drop, List.length_cons]
              omega
            · have h1 := ih _ _ hrec r htl
              simp only [List.length_drop, List.length_cons] at h1 ⊢
              omega

/-- The extracted packed payload is at least 72 digits shorter than the
wrapped calldata. -/
theorem decodeMultiSendArg_length_lt (data p : List Nat)
    (h : decodeMultiSendArg data = some p) : p.length + 72 ≤ data.length := by
  simp only [decodeMultiSendArg] at h
  split at h
  · simp at h
  · split at h
    · simp at h
    · split at h
      · simp at h
      · split at h
        · simp at h
        · split at h
          · simp at h
          · simp only [Option.some.injEq] at h
            subst h
            rename_i h8 _ h64 hpos hrest
            simp only [List.length_take, List.length_drop] at *
            omega

/-- Every sub-call a decodable batch yields has strictly shorter data
than the batch calldata. -/
theorem decodeMultiSend_data_lt (data : List Nat)
    (txs : List DecodedMultiSendTransaction)
    (h : decodeMultiSend data = some txs) :
    ∀ t ∈ txs, t.data.length < data.length := by
  unfold decodeMultiSend at h
  cases harg : decodeMultiSendArg data <;> rw [harg] at h
  · simp at h
  · rename_i p
    intro t ht
    have h1 := multiSendWalkFuel_data_lt p.length p txs (by simpa [multiSendWalk] using h) t ht
    have h2 := decodeMultiSendArg_length_lt data p harg
    omega

/-- The owner-check recursion is independent of the fuel bound once the
bound covers the calldata length. -/
theorem checkTransactionDataFuel_congr : ∀ (fuel fuel' : Nat) (data : List Nat)
    (depth : Nat), data.length ≤ fuel → data.length ≤ fuel' →
    checkTransactionDataFuel fuel data depth = checkTransactionDataFuel fuel' data depth := by
  intro fuel
  induction fuel with
  | zero =>
    intro fuel' data depth h h'
    have hnil : data = [] := List.eq_nil_of_length_eq_zero (Nat.le_zero.mp h)
    subst hnil
    cases fuel' <;> rfl
  | succ fuel ih =>
    intro fuel' data depth h h'
    cases data with
    | nil => cases fuel' <;> rfl
    | cons d ds =>
      obtain ⟨f', rfl⟩ : ∃ f', fuel' = f' + 1 := by
        cases fuel' with
        | zero => simp at h'
        | succ f => exact ⟨f, rfl⟩
      simp only [checkTransactionDataFuel]
      cases hsel : (getFunctionSelector (d :: ds)).bind
          (fun sel => OWNER_MODIFICATION_SELECTORS.lookup sel) with
      | some name => simp only [hsel]
      | none =>
        simp only [hsel]
        cases hdec : decodeMultiSend (d :: ds) with
        | none => simp only [hdec]
        | some txs =>
          simp only [hdec]
          refine flatMap_congr (fun t ht => ?_)
          have hlt := decodeMultiSend_data_lt _ _ hdec t ht
          simp only [List.length_cons] at h h' hlt
          exact ih f' t.data (depth + 1) (by omega) (by omega)

/-- C6: `checkOwnerModifications` — no hit anywhere gives
`modifiesOwners = false`, level `'info'` and no warning; any hit gives
`modifiesOwners = true`, level `'critical'`, a warning, and the full
detection list; the four owner/threshold selectors are detected
directly at depth 0 (`isNested = false`); a decodable batch is unwound
recursively with the depth incremented per nesting level; and an
`addOwnerWithThreshold` packed inside a batch yields exactly one
detection with `isNested = true` and depth 1. -/
theorem checkOwnerModifications_spec :
    (∀ data : List Nat, checkTransactionData data 0 = [] →
      checkOwnerModifications data =
        ⟨false, [], Option.none, .info⟩) ∧
    (∀ data : List Nat, checkTransactionData data 0 ≠ [] →
      (checkOwnerModifications data).modifiesOwners = true ∧
      (checkOwnerModifications data).warningLevel = .critical ∧
      (checkOwnerModifications data).modifications = checkTransactionData data 0 ∧
      (checkOwnerModifications data).warning.isSome = true) ∧
    (∀ (data : List Nat) (name : String), 8 ≤ data.length →
      OWNER_MODIFICATION_SELECTORS.lookup (data.take 8) = some name →
      checkTransactionData data 0 = [⟨name, false, 0⟩]) ∧
    (∀ (data : List Nat) (txs : List DecodedMultiSendTransaction) (depth : Nat),
      (getFunctionSelector data).bind
        (fun sel => OWNER_MODIFICATION_SELECTORS.lookup sel) = Option.none →
      decodeMultiSend data = some txs →
      checkTransactionData data depth =
        txs.flatMap (fun t => checkTransactionData t.data (depth + 1))) ∧
    ((checkOwnerModifications nestedAddOwnerBatch).modifiesOwners = true ∧
      (checkOwnerModifications nestedAddOwnerBatch).modifications =
        [⟨"addOwnerWithThreshold", true, 1⟩] ∧
      (checkOwnerModifications nestedAddOwnerBatch).warningLevel = .critical) := by
  refine ⟨fun data h => ?_, fun data h => ?_, fun data name h8 hname => ?_,
    fun data txs depth hsel hdec => ?_, by decide, by decide, by decide⟩
  · simp [checkOwnerModifications, h]
  · simp [checkOwnerModifications, h]
  · obtain ⟨d, ds, rfl⟩ : ∃ d ds, data = d :: ds := by
      cases data with
      | nil => simp at h8
      | cons d ds => exact ⟨d, ds, rfl⟩
    simp only [List.length_cons] at h8
    have hself : getFunctionSelector (d :: ds) = some ((d :: ds).take 8) := by
      simp only [getFunctionSelector, List.length_cons]
      rw [if_neg (by omega)]
    simp only [checkTransactionData, List.length_cons, checkTransactionDataFuel,
      hself, Option.some_bind, hname]
    rfl
  · cases data with
    | nil => simp [decodeMultiSend, decodeMultiSendArg] at hdec
    | cons d ds =>
      simp only [checkTransactionData, List.length_cons, checkTransactionDataFuel,
        hsel, hdec]
      refine flatMap_congr (fun t ht => ?_)
      have hlt := decodeMultiSend_data_lt _ _ hdec t ht
      simp only [List.length_cons] at hlt
      exact checkTransactionDataFuel_congr _ _ _ _ (by omega) le_rfl

/-- Witness for C6: a direct `addOwnerWithThreshold` call is detected
at depth 0. -/
theorem checkOwnerModifications_spec_witness :
    (8 ≤ (bytesToDigits addOwnerCallBytes).length ∧
      OWNER_MODIFICATION_SELECTORS.lookup ((bytesToDigits addOwnerCallBytes).take 8) =
        some "addOwnerWithThreshold") ∧
    checkTransactionData (bytesToDigits addOwnerCallBytes) 0 =
      [⟨"addOwnerWithThreshold", false, 0⟩] :=
  ⟨⟨by decide, by decide⟩,
   checkOwnerModifications_spec.2.2.1 (bytesToDigits addOwnerCallBytes)
     "addOwnerWithThreshold" (by decide) (by decide)⟩

end SkySafe
